import Mathlib

/-!
Verification of the worktree-resolution and devcontainer session-discovery
subsystem of the `wt` git-worktree manager (main.go).

Strings are modelled as lists of characters (`Str`); Go's byte-oriented
string functions are translated at character granularity, which coincides
with the source behaviour on the ASCII data these functions handle.
External processes (git, docker, the devcontainer CLI) and external
library calls (`net/url.Parse`, `encoding/json.Unmarshal`) are modelled at
their interface: their outputs are explicit inputs of the embedded
functions, while every string operation the repository itself performs on
those outputs is embedded from the source.
-/

abbrev Str := List Char

def toL (s : String) : Str := s.toList

/-- Model of `const worktreeDelimiter = "@"` (main.go line 36). -/
def worktreeDelimiter : Str := toL "@"

/-- Model of `worktreeDirName` (main.go 360-362): `repoBasename + worktreeDelimiter + name`. -/
def worktreeDirName (repoBasename name : Str) : Str :=
  repoBasename ++ worktreeDelimiter ++ name

/-- Model of `parseWorktreeName` (main.go 366-372): strip the prefix
`repoBasename + worktreeDelimiter`; empty string when the prefix does not match. -/
def parseWorktreeName (dirName repoBasename : Str) : Str :=
  let pre := repoBasename ++ worktreeDelimiter
  if pre.isPrefixOf dirName then dirName.drop pre.length else []

/-- Model of `path/filepath.Base` for Unix: empty path gives ".", trailing separators are
stripped, the part after the last separator is returned, an all-separator path
gives "/". The trailing-strip and last-element scan are carried out on the
reversed character list. -/
def filepathBase (p : Str) : Str :=
  if p = [] then toL "."
  else
    let r := p.reverse.dropWhile (fun c => c == '/')
    let e := r.takeWhile (fun c => !(c == '/'))
    if e = [] then toL "/" else e.reverse

/-- Model of `path/filepath.IsAbs` for Unix: the path starts with a separator. -/
def filepathIsAbs (p : Str) : Bool :=
  match p with
  | c :: _ => c == '/'
  | [] => false

/-- Errors produced by the resolution subsystem, one constructor per
distinct `fmt.Errorf` site reached by the embedded functions. -/
inductive Err where
  | nameEmpty
  | nameDotInvalid
  | nameSepInvalid
  | nameBaseInvalid
  | notARepository
  | notInGitWorktree
  | inMainWorktree
  | notRecognizedWorktree
deriving DecidableEq, Repr

/-- Model of `validateWorktreeName` (main.go 1148-1162). `none` means the name is valid. -/
def validateWorktreeName (name : Str) : Option Err :=
  if name = [] then some .nameEmpty
  else if name = toL "." ∨ name = toL ".." then some .nameDotInvalid
  else if name.contains '/' || name.contains '\\' then some .nameSepInvalid
  else if filepathBase name ≠ name ∨ filepathIsAbs name then some .nameBaseInvalid
  else none

/-- Model of `strings.Split(s, sep)` for a one-character separator. -/
def splitOnChar (sep : Char) : Str → List Str
  | [] => [[]]
  | c :: rest =>
    let r := splitOnChar sep rest
    if c == sep then [] :: r
    else
      match r with
      | [] => [[c]]
      | h :: t => (c :: h) :: t

def joinSegs : List Str → Str
  | [] => []
  | [s] => s
  | s :: rest => s ++ '/' :: joinSegs rest

/-- Model of `path/filepath.Clean` for Unix, computed by the equivalent segment-stack
formulation of the source's lazybuf scan: empty input gives ".", "." and
empty segments are dropped, ".." pops the previous segment (or is kept when
nothing poppable remains and the path is relative, or dropped at the root
of a rooted path). -/
def filepathClean (p : Str) : Str :=
  if p = [] then toL "."
  else
    let rooted := filepathIsAbs p
    let stack := (splitOnChar '/' p).foldl (fun acc s =>
        if s = [] || s == toL "." then acc
        else if s == toL ".." then
          match acc with
          | [] => if rooted then [] else [toL ".."]
          | t :: ts => if t == toL ".." then toL ".." :: t :: ts else ts
        else s :: acc) ([] : List Str)
    let body := joinSegs stack.reverse
    if rooted then '/' :: body
    else if body = [] then toL "." else body

/-- Model of `path/filepath.Dir` for Unix: everything up to and including the final
separator, cleaned. -/
def filepathDir (p : Str) : Str :=
  filepathClean ((p.reverse.dropWhile (fun c => !(c == '/'))).reverse)

/-- Model of `path/filepath.Join` for two elements: skip leading empty elements, then
clean the "/"-joined remainder. -/
def filepathJoin (a b : Str) : Str :=
  if a = [] then (if b = [] then [] else filepathClean b)
  else filepathClean (a ++ '/' :: b)

/-- The external state a single `wt` invocation observes: the result of
`getMainRepoRoot` (git rev-parse --git-common-dir), the result of
`getCurrentWorktreeRoot` (git rev-parse --show-toplevel), and the result of
`getWorktreeNames ""` (the enumerated sibling-worktree names). `none`
models the corresponding git command failing. -/
structure Env where
  names : List Str
  mainRoot : Option Str
  wtRoot : Option Str

/-- Model of `resolveCurrentWorktreeName` (main.go 376-394). -/
def resolveCurrentWorktreeName (env : Env) : Except Err Str :=
  match env.wtRoot with
  | none => .error .notInGitWorktree
  | some wtRoot =>
    match env.mainRoot with
    | none => .error .notARepository
    | some mainRoot =>
      if wtRoot = mainRoot then .error .inMainWorktree
      else
        let name := parseWorktreeName (filepathBase wtRoot) (filepathBase mainRoot)
        if name = [] then .error .notRecognizedWorktree
        else .ok name

/-- Model of `resolveExecArgs` (main.go 871-894), taking the first argument and the
remaining arguments separately (the source indexes `args[0]` and is only
called with a non-empty argument list). -/
def resolveExecArgs (env : Env) (a0 : Str) (rest : List Str) :
    Except Err (Str × List Str) :=
  if a0 = toL "." then
    match resolveCurrentWorktreeName env with
    | .error e => .error e
    | .ok name => .ok (name, rest)
  else if env.names.contains a0 then .ok (a0, rest)
  else
    match resolveCurrentWorktreeName env with
    | .error e => .error e
    | .ok name => .ok (name, a0 :: rest)

/-- Model of `resolveOptionalWorktreeArgs` (main.go 1010-1019). -/
def resolveOptionalWorktreeArgs (env : Env) (args : List Str) :
    Except Err (Str × List Str) :=
  match args with
  | [] =>
    match resolveCurrentWorktreeName env with
    | .error e => .error e
    | .ok name => .ok (name, [])
  | a0 :: rest => resolveExecArgs env a0 rest

/-- Model of `resolveWorktreePath` (main.go 408-422): validate, then
`Join(Dir(mainRoot), worktreeDirName(Base(mainRoot), name))`. -/
def resolveWorktreePath (env : Env) (name : Str) : Except Err Str :=
  match validateWorktreeName name with
  | some e => .error e
  | none =>
    match env.mainRoot with
    | none => .error .notARepository
    | some mainRoot =>
      .ok (filepathJoin (filepathDir mainRoot) (worktreeDirName (filepathBase mainRoot) name))

/-- Model of `resolveWorkspaceFolder` (main.go 989-1005): on disambiguation success
resolve the worktree path; on failure fall back to the main root only when
the current toplevel equals it, otherwise propagate the original error. -/
def resolveWorkspaceFolder (env : Env) (args : List Str) :
    Except Err (Str × List Str) :=
  match resolveOptionalWorktreeArgs env args with
  | .ok (name, extra) =>
    match resolveWorktreePath env name with
    | .error e => .error e
    | .ok dir => .ok (dir, extra)
  | .error e =>
    match env.mainRoot with
    | none => .error e
    | some mainRoot =>
      match env.wtRoot with
      | none => .error e
      | some wtRoot =>
        if wtRoot = mainRoot then .ok (mainRoot, args) else .error e

/-- Sample environment from the spec's disambiguation example: worktrees
"alpha" and "beta" exist and the current directory is inside "alpha". -/
def sampleEnv : Env :=
  { names := [toL "alpha", toL "beta"]
    mainRoot := some (toL "/r/proj")
    wtRoot := some (toL "/r/proj@alpha") }

/-- Environment for the fallback example: the current directory is the main
checkout itself, so no named worktree is resolvable. -/
def mainEnv : Env :=
  { names := []
    mainRoot := some (toL "/r/proj")
    wtRoot := some (toL "/r/proj") }

/-- Model of `unicode.IsSpace` restricted to the ASCII range, as used by
`strings.TrimSpace`: space, tab, newline, vertical tab, form feed,
carriage return. -/
def isSpaceGo (c : Char) : Bool :=
  c == ' ' || c == '\t' || c == '\n' || c == '\x0b' || c == '\x0c' || c == '\r'

/-- Model of `strings.TrimSpace`: drop leading and trailing whitespace. -/
def trimSpace (s : Str) : Str :=
  ((s.dropWhile isSpaceGo).reverse.dropWhile isSpaceGo).reverse

/-- Model of `strings.Split(s, "\n")[0]`: everything before the first newline. -/
def firstLine (s : Str) : Str := s.takeWhile (fun c => !(c == '\n'))

/-- Split at the last occurrence of ':' (the index `strings.LastIndexByte`
finds): `s = pre ++ ':' :: post` with no ':' in `post`; `none` when `s`
has no ':'. Computed by scanning the reversed list. -/
def lastColonSplit (s : Str) : Option (Str × Str) :=
  match s.reverse.span (fun c => !(c == ':')) with
  | (_, []) => none
  | (post, _ :: pre) => some (pre.reverse, post.reverse)

/-- Split at the first occurrence of `c` (the index `bytealg.IndexByte`
finds): `s = pre ++ c :: post` with no `c` in `pre`. -/
def firstCharSplit (c : Char) (s : Str) : Option (Str × Str) :=
  match s.span (fun x => !(x == c)) with
  | (_, []) => none
  | (pre, _ :: post) => some (pre, post)

/-- Model of `net.SplitHostPort`: split "host:port" at the last colon, handling a
bracketed (IPv6) host `[...]:port`; all the source's error returns (missing
port, too many colons, missing or stray brackets) collapse to `none`. -/
def netSplitHostPort (hostport : Str) : Option (Str × Str) :=
  match lastColonSplit hostport with
  | none => none
  | some (pre, post) =>
    match hostport with
    | '[' :: _ =>
      match firstCharSplit ']' hostport with
      | none => none
      | some (preB, postB) =>
        match postB with
        | [] => none
        | c :: t =>
          if c == ':' then
            if t.contains ':' then none
            else if ((preB.drop 1) ++ ']' :: postB).contains '[' then none
            else if postB.contains ']' then none
            else some (preB.drop 1, t)
          else none
    | _ =>
      if pre.contains ':' then none
      else if hostport.contains '[' then none
      else if hostport.contains ']' then none
      else some (pre, post)

/-- Errors of the session-discovery and proxy-resolution paths, one
constructor per `fmt.Errorf` site, each carrying the context the source
formats into the message. -/
inductive SessionErr where
  | dockerQueryFailed
  | noRunningDevcontainer (base : Str)
  | noDevcontainerFound (base : Str)
  | noProxyMapped (base : Str)
  | portParseFailed (addr : Str)
deriving DecidableEq, Repr

/-- Container discovery inside `getProxyPort` (main.go 1126-1133): the
first line of the docker ps output, whitespace-trimmed; empty means no
running devcontainer, and the error names the worktree directory's
basename. -/
def discoverContainer (dir : Str) (psOut : Str) : Except SessionErr Str :=
  let containerID := trimSpace (firstLine psOut)
  if containerID = [] then .error (.noRunningDevcontainer (filepathBase dir))
  else .ok containerID

/-- The same discovery step in `runDown` (main.go 912-918), with its own
error message. -/
def runDownFindContainer (dir : Str) (psOut : Str) : Except SessionErr Str :=
  let containerID := trimSpace (firstLine psOut)
  if containerID = [] then .error (.noDevcontainerFound (filepathBase dir))
  else .ok containerID

/-- Model of `getProxyPort` (main.go 1125-1146). `psOut` is the docker ps output
(`none`: the command itself failed), `portOut` is the docker port output
for internal port 1080 (`none`: the command failed, i.e. no mapping). -/
def getProxyPort (dir : Str) (psOut : Option Str) (portOut : Option Str) :
    Except SessionErr Str :=
  match psOut with
  | none => .error .dockerQueryFailed
  | some out =>
    match discoverContainer dir out with
    | .error e => .error e
    | .ok _ =>
      match portOut with
      | none => .error (.noProxyMapped (filepathBase dir))
      | some out2 =>
        let addr := trimSpace (firstLine out2)
        match netSplitHostPort addr with
        | none => .error (.portParseFailed addr)
        | some (_, port) => .ok port

/-- The JSON-line scan of `openDevcontainer` (main.go 1074-1081): the last
buffered line whose trimmed form starts with a brace. -/
def scanJSONLine (out : Str) : Option Str :=
  (splitOnChar '\n' out).foldl (fun acc line =>
    let trimmed := trimSpace line
    if (toL "\x7b").isPrefixOf trimmed then some trimmed else acc) none

def hexDigitLower (n : Nat) : Char :=
  if n < 10 then Char.ofNat ('0'.toNat + n) else Char.ofNat ('a'.toNat + (n - 10))

/-- Model of `encoding/hex.EncodeToString` over the bytes of an ASCII string: two
lowercase hex digits per byte. -/
def hexEncodeStr (s : Str) : Str :=
  s.foldr (fun c acc =>
    hexDigitLower (c.toNat / 16 % 16) :: hexDigitLower (c.toNat % 16) :: acc) []

inductive AttachErr where
  | noJSONOutput
  | unmarshalFailed
deriving DecidableEq, Repr

/-- Model of `openDevcontainer` after a successful bring-up (main.go 1074-1096):
scan for the trailing JSON line, decode it (the `json.Unmarshal` call is
modelled at its interface by `dec`, returning the containerId and
remoteWorkspaceFolder fields), and build the `--folder-uri` value. -/
def openDevcontainerAttach (out : Str) (dec : Str → Option (Str × Str)) :
    Except AttachErr Str :=
  match scanJSONLine out with
  | none => .error .noJSONOutput
  | some line =>
    match dec line with
    | none => .error .unmarshalFailed
    | some (cid, ws) =>
      .ok (toL "vscode-remote://attached-container+" ++ hexEncodeStr cid ++ ws)

/-- The spec's attachment-scan example transcript: progress lines
interleaved with two JSON lines, the second of which must win. -/
def sampleTranscript : Str :=
  toL "pulling image\n\x7b\"containerId\":\"a\"\x7d\nstarting\n\x7b\"containerId\":\"b\",\"remoteWorkspaceFolder\":\"/ws\"\x7d\n"

def sampleJSONLine : Str :=
  toL "\x7b\"containerId\":\"b\",\"remoteWorkspaceFolder\":\"/ws\"\x7d"

/-- The encoding modes of net/url's `shouldEscape`. -/
inductive EncMode where
  | path
  | pathSegment
  | host
  | zone
  | userPassword
  | queryComponent
  | fragment
deriving DecidableEq, BEq, Repr

/-- net/url `shouldEscape(c, mode)`: which bytes stay literal in each
encoding mode (RFC 3986 unreserved set, plus the per-mode sub-delims). -/
def shouldEscape (c : Char) (mode : EncMode) : Bool :=
  if ('a' ≤ c && c ≤ 'z') || ('A' ≤ c && c ≤ 'Z') || ('0' ≤ c && c ≤ '9') then false
  else if (mode == EncMode.host || mode == EncMode.zone)
      && (c == '!' || c == '$' || c == '&' || c == '\'' || c == '(' || c == ')'
        || c == '*' || c == '+' || c == ',' || c == ';' || c == '=' || c == ':'
        || c == '[' || c == ']' || c == '<' || c == '>' || c == '"') then false
  else if c == '-' || c == '_' || c == '.' || c == '~' then false
  else if c == '$' || c == '&' || c == '+' || c == ',' || c == '/' || c == ':'
      || c == ';' || c == '=' || c == '?' || c == '@' then
    match mode with
    | .path => c == '?'
    | .pathSegment => c == '/' || c == ';' || c == ',' || c == '?'
    | .userPassword => c == '@' || c == '/' || c == '?' || c == ':'
    | .queryComponent => true
    | .fragment => false
    | _ => true
  else if mode == EncMode.fragment && (c == '!' || c == '(' || c == ')' || c == '*') then
    false
  else true

def hexDigitUpper (n : Nat) : Char :=
  if n < 10 then Char.ofNat ('0'.toNat + n) else Char.ofNat ('A'.toNat + (n - 10))

/-- net/url `escape(s, mode)`: percent-encode every byte `shouldEscape`
flags (space becomes '+' in query components), uppercase hex. -/
def escapeURL (s : Str) (mode : EncMode) : Str :=
  s.flatMap (fun c =>
    if shouldEscape c mode then
      if c == ' ' && mode == EncMode.queryComponent then toL "+"
      else ['%', hexDigitUpper (c.toNat / 16 % 16), hexDigitUpper (c.toNat % 16)]
    else [c])

/-- net/url's `URL` struct restricted to the fields this program's parse
results populate: no user info, and the raw (pre-escaped) path and fragment
variants are taken as empty, so the default escaping applies. -/
structure GoURL where
  scheme : Str
  opaqueVal : Str
  host : Str
  path : Str
  omitHost : Bool
  forceQuery : Bool
  rawQuery : Str
  fragment : Str
deriving DecidableEq, Repr

/-- The digit test of net/url's `validOptionalPort`. -/
def isDigitGo (c : Char) : Bool := '0' ≤ c && c ≤ '9'

/-- Model of `strings.HasPrefix(h, "[") && strings.HasSuffix(h, "]")` stripping, the
bracket removal inside net/url's `splitHostPort`. -/
def stripBrackets (h : Str) : Str :=
  if (toL "[").isPrefixOf h && (toL "]").isSuffixOf h then (h.drop 1).dropLast else h

/-- net/url's `splitHostPort` (unexported; used by `URL.Hostname` and
`URL.Port`): split at the last colon when everything after it is numeric
(`validOptionalPort`), then strip surrounding brackets from the host. -/
def urlSplitHostPort (hostPort : Str) : Str × Str :=
  match lastColonSplit hostPort with
  | some (pre, post) =>
    if post.all isDigitGo then (stripBrackets pre, post)
    else (stripBrackets hostPort, [])
  | none => (stripBrackets hostPort, [])

/-- Model of `URL.Hostname()`. -/
def urlHostname (u : GoURL) : Str := (urlSplitHostPort u.host).1

/-- Model of `URL.Port()` (without the leading colon). -/
def urlPort (u : GoURL) : Str := (urlSplitHostPort u.host).2

/-- Model of `net.JoinHostPort`: bracket the host when it contains a colon. -/
def netJoinHostPort (host port : Str) : Str :=
  if host.contains ':' then '[' :: (host ++ ']' :: ':' :: port)
  else host ++ ':' :: port

/-- Model of `URL.EscapedPath()` with the raw path empty: "*" passes through,
everything else is escaped in path mode. -/
def escapedPath (u : GoURL) : Str :=
  if u.path = toL "*" then toL "*" else escapeURL u.path .path

/-- Model of `URL.String()` (net/url), restricted to URLs without user info:
scheme ":", then either the opaque part or "//host" and the escaped path
(with the defensive "./" and "/" insertions of the source), then
"?" rawQuery and "#" fragment. -/
def urlString (u : GoURL) : Str :=
  let b0 : Str := if u.scheme ≠ [] then u.scheme ++ [':'] else []
  let b1 : Str :=
    if u.opaqueVal ≠ [] then b0 ++ u.opaqueVal
    else
      let b :=
        if u.scheme ≠ [] ∨ u.host ≠ [] then
          if u.omitHost ∧ u.host = [] then b0
          else
            let bb := if u.host ≠ [] ∨ u.path ≠ [] then b0 ++ toL "//" else b0
            if u.host ≠ [] then bb ++ escapeURL u.host .host else bb
        else b0
      let path := escapedPath u
      let b := if path ≠ [] ∧ ¬(path.head? = some '/') ∧ u.host ≠ [] then b ++ toL "/" else b
      let b :=
        if b = [] then
          if (path.takeWhile (fun c => !(c == '/'))).contains ':' then b ++ toL "./"
          else b
        else b
      b ++ path
  let b2 : Str := if u.forceQuery ∨ u.rawQuery ≠ [] then b1 ++ '?' :: u.rawQuery else b1
  if u.fragment ≠ [] then b2 ++ '#' :: escapeURL u.fragment .fragment else b2

/-- Model of `normalizeLocalhostURL` (main.go 828-839), with the `url.Parse` call
modelled at its interface: `parsed` is the parse result (`none`: parse
error). A parse failure, an empty host, or a hostname other than
"localhost" returns the argument unchanged; otherwise the host is
rewritten to 127.0.0.1 (joined with the port when one is present) and the
URL re-serialized. -/
def normalizeLocalhostURL (arg : Str) (parsed : Option GoURL) : Str :=
  match parsed with
  | none => arg
  | some u =>
    if u.host = [] ∨ urlHostname u ≠ toL "localhost" then arg
    else if urlPort u = [] then urlString { u with host := toL "127.0.0.1" }
    else urlString { u with host := netJoinHostPort (toL "127.0.0.1") (urlPort u) }

/-- Model of `url.Parse "http://localhost/"`. -/
def urlLocalhostRoot : GoURL :=
  { scheme := toL "http", opaqueVal := [], host := toL "localhost", path := toL "/"
    omitHost := false, forceQuery := false, rawQuery := [], fragment := [] }

/-- Model of `url.Parse "http://localhost:9/"`. -/
def urlLocalhostPort9 : GoURL :=
  { scheme := toL "http", opaqueVal := [], host := toL "localhost:9", path := toL "/"
    omitHost := false, forceQuery := false, rawQuery := [], fragment := [] }

/-- Model of `url.Parse "http://example.com/"`. -/
def urlExample : GoURL :=
  { scheme := toL "http", opaqueVal := [], host := toL "example.com", path := toL "/"
    omitHost := false, forceQuery := false, rawQuery := [], fragment := [] }

/-- Model of `url.Parse "localhost"`: scheme-less, no authority — everything lands
in the path and the host is empty. -/
def urlBareName : GoURL :=
  { scheme := [], opaqueVal := [], host := [], path := toL "localhost"
    omitHost := false, forceQuery := false, rawQuery := [], fragment := [] }

/-- Model of `url.Parse "localhost:8080"`: "localhost" is taken as the scheme and
"8080" as the opaque part — the host is empty. -/
def urlBareHostPort : GoURL :=
  { scheme := toL "localhost", opaqueVal := toL "8080", host := [], path := []
    omitHost := false, forceQuery := false, rawQuery := [], fragment := [] }

theorem isPrefixOf_append_self (a b : Str) : a.isPrefixOf (a ++ b) = true := by
  rw [List.isPrefixOf_iff_prefix]
  exact List.prefix_append a b

theorem isAbs_contains_sep (p : Str) (h : filepathIsAbs p = true) :
    p.contains '/' = true := by
  cases p with
  | nil => simp [filepathIsAbs] at h
  | cons c rest =>
    have hc : c = '/' := by
      unfold filepathIsAbs at h
      exact eq_of_beq h
    subst hc
    simp [List.contains]

/-- C1: for every project basename `b` and every valid worktree name `n`
(non-empty, no path separators, not "." or ".."), decoding the encoded
directory name recovers `n` exactly:
`parseWorktreeName (worktreeDirName b n) b = n`. -/
theorem roundtrip_parse_of_dirName (b n : Str)
    (_h1 : n ≠ []) (_h2 : n.contains '/' = false) (_h3 : n.contains '\\' = false)
    (_h4 : n ≠ toL ".") (_h5 : n ≠ toL "..") :
    parseWorktreeName (worktreeDirName b n) b = n := by
  have hp := isPrefixOf_append_self (b ++ worktreeDelimiter) n
  have hd := List.drop_left (b ++ worktreeDelimiter) n
  unfold parseWorktreeName worktreeDirName
  simp only [List.append_assoc] at hp hd ⊢
  simp [hp, hd]

/-- Witness for C1 at `b = "repo"`, `n = "x"`. -/
theorem roundtrip_parse_of_dirName_witness :
    parseWorktreeName (worktreeDirName (toL "repo") (toL "x")) (toL "repo") = toL "x" :=
  roundtrip_parse_of_dirName (toL "repo") (toL "x")
    (by decide) (by decide) (by decide) (by decide) (by decide)

/-- C2 counterexample: the name "a@b" contains the delimiter '@' yet
`validateWorktreeName` accepts it, so validation does not reject every
name in which the delimiter appears. -/
theorem validate_accepts_delimiter_name :
    validateWorktreeName (toL "a@b") = none ∧ (toL "a@b").contains '@' = true := by
  constructor
  · decide
  · decide

/-- C2 amended: `validateWorktreeName` does not enforce the no-delimiter
contract — there exists a name containing the delimiter '@' that validation
accepts. -/
theorem validate_not_delimiter_free :
    ∃ n : Str, validateWorktreeName n = none ∧ n.contains '@' = true :=
  ⟨toL "a@b", by decide, by decide⟩

/-- C4: `validateWorktreeName n` returns an error exactly when `n` is empty,
`n` is "." or "..", `n` contains '/' or '\', or `filepathBase n ≠ n`; every
other string is accepted. -/
theorem validate_rejects_exactly (n : Str) :
    (validateWorktreeName n).isSome = true ↔
      (n = [] ∨ n = toL "." ∨ n = toL ".." ∨
       n.contains '/' = true ∨ n.contains '\\' = true ∨ filepathBase n ≠ n) := by
  unfold validateWorktreeName
  split_ifs with h1 h2 h3 h4
  · exact iff_of_true rfl (Or.inl h1)
  · rcases h2 with h2 | h2
    · exact iff_of_true rfl (Or.inr (Or.inl h2))
    · exact iff_of_true rfl (Or.inr (Or.inr (Or.inl h2)))
  · rcases Bool.or_eq_true_iff.mp h3 with h3 | h3
    · exact iff_of_true rfl (Or.inr (Or.inr (Or.inr (Or.inl h3))))
    · exact iff_of_true rfl (Or.inr (Or.inr (Or.inr (Or.inr (Or.inl h3)))))
  · rcases h4 with h4 | h4
    · exact iff_of_true rfl (Or.inr (Or.inr (Or.inr (Or.inr (Or.inr h4)))))
    · exact iff_of_true rfl (Or.inr (Or.inr (Or.inr (Or.inl (isAbs_contains_sep n h4)))))
  · apply iff_of_false
    · simp
    · intro hc
      rcases hc with hc | hc | hc | hc | hc | hc
      · exact absurd hc h1
      · exact absurd (Or.inl hc) h2
      · exact absurd (Or.inr hc) h2
      · exact absurd (Bool.or_eq_true_iff.mpr (Or.inl hc)) h3
      · exact absurd (Bool.or_eq_true_iff.mpr (Or.inr hc)) h3
      · exact absurd (Or.inl hc) h4

/-- C3: for a command of shape `[worktree-ref] [payload...]` with current
worktree `c`: an empty argument list resolves to `(c, [])`; a leading "."
resolves to `c` with the rest as payload; a leading token that is a known
worktree name resolves to that name with the rest as payload; any other
leading token leaves the whole list as payload for `c`. -/
theorem disambiguator_resolution (env : Env) (c : Str)
    (hc : resolveCurrentWorktreeName env = .ok c) :
    resolveOptionalWorktreeArgs env [] = .ok (c, [])
    ∧ (∀ rest, resolveOptionalWorktreeArgs env (toL "." :: rest) = .ok (c, rest))
    ∧ (∀ a rest, a ≠ toL "." → env.names.contains a = true →
        resolveOptionalWorktreeArgs env (a :: rest) = .ok (a, rest))
    ∧ (∀ a rest, a ≠ toL "." → env.names.contains a = false →
        resolveOptionalWorktreeArgs env (a :: rest) = .ok (c, a :: rest)) := by
  refine ⟨?_, ?_, ?_, ?_⟩
  · simp [resolveOptionalWorktreeArgs, hc]
  · intro rest
    simp [resolveOptionalWorktreeArgs, resolveExecArgs, hc]
  · intro a rest ha hmem
    have hm : a ∈ env.names := List.elem_iff.mp hmem
    simp [resolveOptionalWorktreeArgs, resolveExecArgs, ha, hm]
  · intro a rest ha hmem
    have hm : a ∉ env.names := by
      intro h
      have ht : env.names.contains a = true := List.elem_iff.mpr h
      rw [ht] at hmem
      exact Bool.noConfusion hmem
    simp [resolveOptionalWorktreeArgs, resolveExecArgs, ha, hm, hc]

/-- Witness for C3: the spec's concrete example, with worktrees
["alpha", "beta"] and current worktree "alpha": `[]` gives (alpha, []),
`["."]` gives (alpha, []), `["beta","x"]` gives (beta, ["x"]), and
`["gamma","x"]` gives (alpha, ["gamma","x"]). -/
theorem disambiguator_resolution_witness :
    resolveOptionalWorktreeArgs sampleEnv [] = .ok (toL "alpha", [])
    ∧ resolveOptionalWorktreeArgs sampleEnv [toL "."] = .ok (toL "alpha", [])
    ∧ resolveOptionalWorktreeArgs sampleEnv [toL "beta", toL "x"]
        = .ok (toL "beta", [toL "x"])
    ∧ resolveOptionalWorktreeArgs sampleEnv [toL "gamma", toL "x"]
        = .ok (toL "alpha", [toL "gamma", toL "x"]) := by
  have h := disambiguator_resolution sampleEnv (toL "alpha") rfl
  exact ⟨h.1, h.2.1 [],
    h.2.2.1 (toL "beta") [toL "x"] (by decide) (by decide),
    h.2.2.2 (toL "gamma") [toL "x"] (by decide) (by decide)⟩

/-- C9: when argument disambiguation fails with error `e`,
`resolveWorkspaceFolder` returns the project root with the entire original
argument list exactly when the current toplevel equals the project root
(both git queries succeeding); in every other case it propagates `e`
unchanged. -/
theorem workspaceFolder_fallback (env : Env) (args : List Str) (e : Err)
    (he : resolveOptionalWorktreeArgs env args = .error e) :
    (∀ m, env.mainRoot = some m → env.wtRoot = some m →
       resolveWorkspaceFolder env args = .ok (m, args))
    ∧ (env.mainRoot = none → resolveWorkspaceFolder env args = .error e)
    ∧ (∀ m, env.mainRoot = some m → env.wtRoot = none →
       resolveWorkspaceFolder env args = .error e)
    ∧ (∀ m w, env.mainRoot = some m → env.wtRoot = some w → w ≠ m →
       resolveWorkspaceFolder env args = .error e) := by
  refine ⟨?_, ?_, ?_, ?_⟩
  · intro m hm hw
    simp [resolveWorkspaceFolder, he, hm, hw]
  · intro hm
    simp [resolveWorkspaceFolder, he, hm]
  · intro m hm hw
    simp [resolveWorkspaceFolder, he, hm, hw]
  · intro m w hm hw hne
    simp [resolveWorkspaceFolder, he, hm, hw, hne]

/-- Witness for C9: from the main checkout (toplevel equals project root)
with argument list ["x"], disambiguation fails with the in-main-worktree
error and the fallback returns the project root with the whole list. -/
theorem workspaceFolder_fallback_witness :
    resolveWorkspaceFolder mainEnv [toL "x"] = .ok (toL "/r/proj", [toL "x"]) :=
  (workspaceFolder_fallback mainEnv [toL "x"] .inMainWorktree rfl).1
    (toL "/r/proj") rfl rfl

theorem foldl_if_none {α β : Type} (p : α → Bool) (g : α → β) :
    ∀ (l : List α) (acc : Option β), (∀ x ∈ l, p x = false) →
      l.foldl (fun a x => if p x then some (g x) else a) acc = acc := by
  intro l
  induction l with
  | nil => intro acc _; rfl
  | cons x xs ih =>
    intro acc h
    have hx : p x = false := h x (by simp)
    rw [List.foldl_cons]
    simp only [hx, Bool.false_eq_true, if_false]
    exact ih acc (fun y hy => h y (by simp [hy]))

/-- C6: session discovery takes the first line of the runtime's
find-by-label output, whitespace-trimmed, as the container identifier:
"abc123\ndef456\n" gives abc123, while "" and "\n" give the
no-running-session error naming the worktree directory (in both
`getProxyPort`'s discovery step and `runDown`'s). -/
theorem session_discovery_first_line (dir : Str) :
    discoverContainer dir (toL "abc123\ndef456\n") = .ok (toL "abc123")
    ∧ discoverContainer dir (toL "") = .error (.noRunningDevcontainer (filepathBase dir))
    ∧ discoverContainer dir (toL "\n") = .error (.noRunningDevcontainer (filepathBase dir))
    ∧ runDownFindContainer dir (toL "abc123\ndef456\n") = .ok (toL "abc123")
    ∧ runDownFindContainer dir (toL "") = .error (.noDevcontainerFound (filepathBase dir))
    ∧ runDownFindContainer dir (toL "\n") = .error (.noDevcontainerFound (filepathBase dir)) :=
  ⟨rfl, rfl, rfl, rfl, rfl, rfl⟩

/-- C5: once a container is found, the proxy-port query's first output line
is split as host:port and the port returned ("0.0.0.0:32768\n[::]:32768\n"
gives 32768); a failed port query gives the no-proxy-port-mapped error,
which is distinct from the no-running-devcontainer error; an unsplittable
first line gives a parse error naming that trimmed line. -/
theorem proxy_port_parse (dir psOut : Str)
    (hfound : trimSpace (firstLine psOut) ≠ []) :
    getProxyPort dir (some psOut) (some (toL "0.0.0.0:32768\n[::]:32768\n"))
      = .ok (toL "32768")
    ∧ getProxyPort dir (some psOut) none = .error (.noProxyMapped (filepathBase dir))
    ∧ (∀ b b', SessionErr.noProxyMapped b ≠ SessionErr.noRunningDevcontainer b')
    ∧ (∀ out2, netSplitHostPort (trimSpace (firstLine out2)) = none →
        getProxyPort dir (some psOut) (some out2)
          = .error (.portParseFailed (trimSpace (firstLine out2)))) := by
  have hd : discoverContainer dir psOut = .ok (trimSpace (firstLine psOut)) := by
    unfold discoverContainer
    simp [hfound]
  refine ⟨?_, ?_, ?_, ?_⟩
  · simp only [getProxyPort]
    rw [hd]
    rfl
  · simp only [getProxyPort]
    rw [hd]
  · intro b b' h
    exact SessionErr.noConfusion h
  · intro out2 hparse
    simp only [getProxyPort]
    rw [hd]
    simp [hparse]

/-- Witness for C5 with a found container "abc". -/
theorem proxy_port_parse_witness :
    getProxyPort (toL "/r/proj@a") (some (toL "abc\n"))
        (some (toL "0.0.0.0:32768\n[::]:32768\n")) = .ok (toL "32768") :=
  (proxy_port_parse (toL "/r/proj@a") (toL "abc\n") (by decide)).1

/-- C7: the attachment scanner keeps the last buffered line whose trimmed
form starts with a brace (on the spec's two-JSON-line example the second
line wins); when no such line exists it fails with the no-structured-output
error; otherwise the decoded identifier and workspace folder yield exactly
the locator "vscode-remote://attached-container+" ++ hex(containerID) ++
remoteWorkspaceFolder. -/
theorem attach_scan_and_uri :
    scanJSONLine sampleTranscript = some sampleJSONLine
    ∧ (∀ out dec,
        (∀ l ∈ splitOnChar '\n' out, (toL "\x7b").isPrefixOf (trimSpace l) = false) →
        openDevcontainerAttach out dec = .error .noJSONOutput)
    ∧ (∀ out dec line cid ws, scanJSONLine out = some line → dec line = some (cid, ws) →
        openDevcontainerAttach out dec
          = .ok (toL "vscode-remote://attached-container+" ++ hexEncodeStr cid ++ ws))
    ∧ openDevcontainerAttach sampleTranscript (fun _ => some (toL "b", toL "/ws"))
        = .ok (toL "vscode-remote://attached-container+62/ws") := by
  refine ⟨rfl, ?_, ?_, rfl⟩
  · intro out dec h
    have hs : scanJSONLine out = none := by
      unfold scanJSONLine
      exact foldl_if_none _ _ (splitOnChar '\n' out) none h
    simp [openDevcontainerAttach, hs]
  · intro out dec line cid ws hscan hdec
    simp [openDevcontainerAttach, hscan, hdec]

/-- Witness for C7: a transcript with one log line and one JSON line, and a
decoder returning containerId "b" and workspace folder "/ws". -/
theorem attach_scan_and_uri_witness :
    openDevcontainerAttach (toL "log\n\x7bx\x7d\n") (fun _ => some (toL "b", toL "/ws"))
      = .ok (toL "vscode-remote://attached-container+62/ws") :=
  attach_scan_and_uri.2.2.1 (toL "log\n\x7bx\x7d\n") (fun _ => some (toL "b", toL "/ws"))
    (toL "\x7bx\x7d") (toL "b") (toL "/ws") rfl rfl

theorem takeDropWhile_append {p : Char → Bool} :
    ∀ (l : Str) (x : Char) (r : Str), (∀ c ∈ l, p c = true) → p x = false →
      ((l ++ x :: r).takeWhile p = l ∧ (l ++ x :: r).dropWhile p = x :: r) := by
  intro l
  induction l with
  | nil =>
    intro x r _ hx
    constructor
    · simp [List.takeWhile, hx]
    · simp [List.dropWhile, hx]
  | cons c t ih =>
    intro x r hall hx
    have hc : p c = true := hall c (by simp)
    have ht := ih x r (fun y hy => hall y (by simp [hy])) hx
    constructor
    · simp [List.takeWhile, hc, ht.1]
    · simp [List.dropWhile, hc, ht.2]

theorem lastColonSplit_append (h p : Str) (hp : ':' ∉ p) :
    lastColonSplit (h ++ ':' :: p) = some (h, p) := by
  unfold lastColonSplit
  rw [List.span_eq_take_drop]
  have hrev : (h ++ ':' :: p).reverse = p.reverse ++ ':' :: h.reverse := by simp
  rw [hrev]
  have hall : ∀ c ∈ p.reverse, (!(c == ':')) = true := by
    intro c hc
    have hmem : c ∈ p := List.mem_reverse.mp hc
    have hne : ¬ c = ':' := fun he => hp (he ▸ hmem)
    simp [hne]
  have hx : (!(':' == ':')) = false := by decide
  obtain ⟨ht, hd⟩ := takeDropWhile_append p.reverse ':' h.reverse hall hx
  rw [ht, hd]
  simp

theorem urlPort_all_digits (u : GoURL) : (urlPort u).all isDigitGo = true := by
  unfold urlPort urlSplitHostPort
  cases hl : lastColonSplit u.host with
  | none => rfl
  | some pr =>
    obtain ⟨pre, post⟩ := pr
    cases hd : post.all isDigitGo
    · simp [hd]
    · simp [hd]

theorem digits_no_colon (p : Str) (h : p.all isDigitGo = true) : ':' ∉ p := by
  intro hm
  have hc := List.all_eq_true.mp h ':' hm
  exact absurd hc (by decide)

/-- C8: `normalizeLocalhostURL` rewrites every parsed URL whose hostname is
exactly "localhost" so that the host becomes 127.0.0.1 with any explicit
port preserved (hostname of the result is 127.0.0.1 and its port equals the
original port), and returns every URL with any other hostname unchanged;
concretely http://localhost/ becomes http://127.0.0.1/, http://localhost:9/
becomes http://127.0.0.1:9/, and http://example.com/ is unchanged. -/
theorem normalize_localhost (arg : Str) (u : GoURL)
    (hh : u.host ≠ []) (hl : urlHostname u = toL "localhost") :
    (urlPort u = [] →
       normalizeLocalhostURL arg (some u) = urlString { u with host := toL "127.0.0.1" }
       ∧ urlHostname { u with host := toL "127.0.0.1" } = toL "127.0.0.1"
       ∧ urlPort { u with host := toL "127.0.0.1" } = urlPort u)
    ∧ (urlPort u ≠ [] →
       normalizeLocalhostURL arg (some u)
         = urlString { u with host := netJoinHostPort (toL "127.0.0.1") (urlPort u) }
       ∧ urlHostname { u with host := netJoinHostPort (toL "127.0.0.1") (urlPort u) }
           = toL "127.0.0.1"
       ∧ urlPort { u with host := netJoinHostPort (toL "127.0.0.1") (urlPort u) }
           = urlPort u)
    ∧ (∀ (arg2 : Str) (v : GoURL), urlHostname v ≠ toL "localhost" →
        normalizeLocalhostURL arg2 (some v) = arg2)
    ∧ normalizeLocalhostURL (toL "http://localhost/") (some urlLocalhostRoot)
        = toL "http://127.0.0.1/"
    ∧ normalizeLocalhostURL (toL "http://localhost:9/") (some urlLocalhostPort9)
        = toL "http://127.0.0.1:9/"
    ∧ normalizeLocalhostURL (toL "http://example.com/") (some urlExample)
        = toL "http://example.com/" := by
  have hcond : ¬(u.host = [] ∨ urlHostname u ≠ toL "localhost") := by
    intro hc
    rcases hc with hc | hc
    · exact hh hc
    · exact hc hl
  refine ⟨?_, ?_, ?_, by decide, by decide, by decide⟩
  · intro hp
    refine ⟨?_, ?_, ?_⟩
    · simp only [normalizeLocalhostURL]
      rw [if_neg hcond, if_pos hp]
    · have hred : urlHostname { u with host := toL "127.0.0.1" }
          = (urlSplitHostPort (toL "127.0.0.1")).1 := rfl
      rw [hred]
      decide
    · have hred : urlPort { u with host := toL "127.0.0.1" }
          = (urlSplitHostPort (toL "127.0.0.1")).2 := rfl
      rw [hred, hp]
      decide
  · intro hp
    have hall := urlPort_all_digits u
    have hnc := digits_no_colon _ hall
    have h127 : ¬((toL "127.0.0.1").contains ':' = true) := by decide
    have hjoin : netJoinHostPort (toL "127.0.0.1") (urlPort u)
        = toL "127.0.0.1" ++ ':' :: urlPort u := by
      unfold netJoinHostPort
      rw [if_neg h127]
    have hsb : stripBrackets (toL "127.0.0.1") = toL "127.0.0.1" := by decide
    have hsp : urlSplitHostPort (netJoinHostPort (toL "127.0.0.1") (urlPort u))
        = (toL "127.0.0.1", urlPort u) := by
      rw [hjoin]
      unfold urlSplitHostPort
      rw [lastColonSplit_append _ _ hnc]
      simp [hall, hsb]
    refine ⟨?_, ?_, ?_⟩
    · simp only [normalizeLocalhostURL]
      rw [if_neg hcond, if_neg hp]
    · show (urlSplitHostPort (netJoinHostPort (toL "127.0.0.1") (urlPort u))).1
        = toL "127.0.0.1"
      rw [hsp]
    · show (urlSplitHostPort (netJoinHostPort (toL "127.0.0.1") (urlPort u))).2 = urlPort u
      rw [hsp]
  · intro arg2 v hv
    simp only [normalizeLocalhostURL]
    rw [if_pos (Or.inr hv)]

/-- Witness for C8 at the parse of "http://localhost/". -/
theorem normalize_localhost_witness :
    normalizeLocalhostURL (toL "http://localhost/") (some urlLocalhostRoot)
      = toL "http://127.0.0.1/" :=
  (normalize_localhost (toL "http://localhost/") urlLocalhostRoot
    (by decide) (by decide)).2.2.2.1

/-- C10: `normalizeLocalhostURL` is the identity on every input that is not
an absolute URL with hostname "localhost": a parse failure, a parse with an
empty host (including the scheme-less forms "localhost" and
"localhost:8080"), or any other hostname returns the argument unchanged,
with no error path. -/
theorem normalize_identity_otherwise :
    (∀ arg, normalizeLocalhostURL arg none = arg)
    ∧ (∀ arg (u : GoURL), u.host = [] → normalizeLocalhostURL arg (some u) = arg)
    ∧ (∀ arg (u : GoURL), urlHostname u ≠ toL "localhost" →
        normalizeLocalhostURL arg (some u) = arg)
    ∧ normalizeLocalhostURL (toL "localhost") (some urlBareName) = toL "localhost"
    ∧ normalizeLocalhostURL (toL "localhost:8080") (some urlBareHostPort)
        = toL "localhost:8080" := by
  refine ⟨?_, ?_, ?_, by decide, by decide⟩
  · intro arg
    rfl
  · intro arg u h
    simp only [normalizeLocalhostURL]
    rw [if_pos (Or.inl h)]
  · intro arg u h
    simp only [normalizeLocalhostURL]
    rw [if_pos (Or.inr h)]

/-- Witness for C10: the parse of the bare string "localhost" has an empty
host, so the argument comes back unchanged. -/
theorem normalize_identity_otherwise_witness :
    normalizeLocalhostURL (toL "localhost") (some urlBareName) = toL "localhost" :=
  normalize_identity_otherwise.2.1 (toL "localhost") urlBareName rfl
